import Mathlib

/-!
Shallow embedding of the sundae-strategies off-chain decision engine
(shared library `sundae-strategies` plus the stop-loss, symmetrical-grid and
trailing-stop-loss workers) for checking its natural-language specification.

Modelling conventions:
* Byte sequences (`Vec<u8>`) are `List Nat`.
* `u64` machine integers are `Nat`; where the Rust code uses saturating or
  wrapping arithmetic, the saturation / `% 2^64` is written explicitly.
* `f64` arithmetic is idealized as exact rational (`ℚ`) arithmetic; every
  comparison a claim depends on is far outside double rounding error.  The
  only `f64`-specific behaviours that matter (division by a zero reserve
  yielding a non-finite value, casts `as u64` truncating) are modelled
  explicitly (see `RawPrice`).
* Fallible / panicking code paths return `Option` (`none` = panic).
* The key-value store (`kv::get` / `kv::set`, whole-value get/set) is
  modelled as an association list threaded through each handler.
* CBOR parsing (`types::try_parse`) is out of scope per the spec; an event
  carries the parse result (`Option OrderDatum`) directly.
-/

namespace SundaeStrategies

/-- Byte sequences (`Vec<u8>` in the source). -/
abbrev Bytes := List Nat

/-- `u64::MAX`. -/
def U64_MAX : Nat := 2 ^ 64 - 1

/-- `u64` saturating addition. -/
def satAdd (a b : Nat) : Nat := min (a + b) U64_MAX

/-- `u64` saturating multiplication. -/
def satMul (a b : Nat) : Nat := min (a * b) U64_MAX

/-- `u64` saturating subtraction (truncated subtraction on `Nat`). -/
def satSub (a b : Nat) : Nat := a - b

/-- `types.rs`: `AssetId { policy_id, asset_name }`. -/
structure AssetId where
  policy_id : Bytes
  asset_name : Bytes
deriving DecidableEq, Repr

/-- `types.rs`: `AssetId::is_ada` — both components empty. -/
def AssetId.is_ada (a : AssetId) : Bool :=
  a.policy_id.isEmpty && a.asset_name.isEmpty

/-- `types.rs`: `InlineAssetId = (Vec<u8>, Vec<u8>)`. -/
abbrev InlineAssetId := Bytes × Bytes

/-- `types.rs`: `impl From<(Vec<u8>, Vec<u8>)> for AssetId`. -/
def inlineToAssetId (i : InlineAssetId) : AssetId := ⟨i.1, i.2⟩

/-- `types.rs`: `PartialEq<InlineAssetId> for AssetId` — fieldwise equality. -/
def AssetId.eqInline (a : AssetId) (i : InlineAssetId) : Bool :=
  decide (a.policy_id = i.1 ∧ a.asset_name = i.2)

/-- One entry of a multiasset group (utxorpc `Asset`): name and amount. -/
structure Asset where
  name : Bytes
  output_coin : Nat
deriving DecidableEq, Repr

/-- One multiasset group of a `TxOutput` (utxorpc `Multiasset`). -/
structure Multiasset where
  policy_id : Bytes
  assets : List Asset
deriving DecidableEq, Repr

/-- utxorpc `TxOutput`: the fields the engine reads (coin balance and the
multi-asset bundle). -/
structure TxOutput where
  coin : Nat
  assets : List Multiasset
deriving DecidableEq, Repr

/-- `txbuilder::plutus::BigInt` as consumed by `to_u64`: an integer in the
minicbor `Int` range, or a big unsigned / big negative bignum. -/
inductive BigInt where
  | int (value : ℤ)
  | bigUInt (bytes : Bytes)
  | bigNInt (bytes : Bytes)
deriving DecidableEq, Repr

/-- `types.rs`: `to_u64` — `u64::try_from` succeeds exactly on `0 ≤ v < 2^64`;
bignum variants are rejected. -/
def to_u64 (b : BigInt) : Option Nat :=
  match b with
  | .int v => if 0 ≤ v ∧ v < 2 ^ 64 then some v.toNat else none
  | .bigUInt _ => none
  | .bigNInt _ => none

/-- `types.rs`: `MultisigScript`. -/
inductive MultisigScript where
  | signature (key_hash : Bytes)
deriving DecidableEq, Repr

/-- `types.rs`: `Destination` (only `Self_`). -/
inductive Destination where
  | self_
deriving DecidableEq, Repr

/-- `types.rs`: `StrategyAuthorization`. -/
inductive StrategyAuthorization where
  | signature (signer : Bytes)
deriving DecidableEq, Repr

/-- `types.rs`: `SingletonValue = (Vec<u8>, Vec<u8>, u64)`. -/
abbrev SingletonValue := Bytes × Bytes × Nat

/-- `types.rs`: `Order` — a strategy order or a concrete swap. -/
inductive Order where
  | strategy (auth : StrategyAuthorization)
  | swap (offer : SingletonValue) (min_received : SingletonValue)
deriving DecidableEq, Repr

/-- `types.rs`: `TransactionId(pub Vec<u8>)`. -/
structure TransactionId where
  bytes : Bytes
deriving DecidableEq, Repr

/-- `types.rs`: `OutputReference { transaction_id, output_index }`. -/
structure OutputReference where
  transaction_id : TransactionId
  output_index : Nat
deriving DecidableEq, Repr

/-- `types.rs`: `IntervalBoundType`. -/
inductive IntervalBoundType where
  | negativeInfinity
  | finite (millis : Nat)
  | positiveInfinity
deriving DecidableEq, Repr

/-- `types.rs`: `IntervalBound { bound_type, is_inclusive }`. -/
structure IntervalBound where
  bound_type : IntervalBoundType
  is_inclusive : Bool
deriving DecidableEq, Repr

/-- `types.rs`: `Interval { lower_bound, upper_bound }`. -/
structure Interval where
  lower_bound : IntervalBound
  upper_bound : IntervalBound
deriving DecidableEq, Repr

/-- `types.rs`: `Interval::inclusive_range` — finite inclusive bounds. -/
def Interval.inclusive_range (lower_millis upper_millis : Nat) : Interval :=
  ⟨⟨.finite lower_millis, true⟩, ⟨.finite upper_millis, true⟩⟩

/-- Semantic membership of a time in an `Interval` (the meaning of the
validity window; not itself source code). -/
def Interval.contains (i : Interval) (t : Nat) : Prop :=
  (match i.lower_bound.bound_type with
   | .negativeInfinity => True
   | .finite n => if i.lower_bound.is_inclusive then n ≤ t else n < t
   | .positiveInfinity => False) ∧
  (match i.upper_bound.bound_type with
   | .negativeInfinity => False
   | .finite n => if i.upper_bound.is_inclusive then t ≤ n else t < n
   | .positiveInfinity => True)

/-- `types.rs`: `PoolDatum`. -/
structure PoolDatum where
  identifier : Bytes
  assets : InlineAssetId × InlineAssetId
  circulating_lp : BigInt
  bid_fees_per_10_thousand : BigInt
  ask_fees_per_10_thousand : BigInt
  fee_manager : Option MultisigScript
  market_open : BigInt
  protocol_fees : BigInt
deriving DecidableEq, Repr

/-- `types.rs`: `OrderDatum`. -/
structure OrderDatum where
  pool_ident : Option Bytes
  owner : MultisigScript
  max_protocol_fee : BigInt
  destination : Destination
  details : Order
  extra : Bytes
deriving DecidableEq, Repr

/-- `types.rs`: `asset_amount` — for ADA the coin balance, otherwise the
FIRST matching (policy, name) amount in the multiasset bundle, `0` if
absent (nested `filter_map` + `.next()` in the source). -/
def asset_amount (output : TxOutput) (find_asset : AssetId) : Nat :=
  if find_asset.is_ada then output.coin
  else
    ((output.assets.filterMap (fun m =>
        (m.assets.filterMap (fun a =>
          if m.policy_id = find_asset.policy_id ∧ a.name = find_asset.asset_name
          then some a.output_coin else none)).head?)).head?).getD 0

/-- Result of a floating-point price computation: a finite value, or the
non-finite result (`inf` / `NaN`) produced by dividing by a zero reserve. -/
inductive RawPrice where
  | finite (q : ℚ)
  | nonfinite
deriving DecidableEq, Repr

/-- `types.rs`: `PoolDatum::raw_price`.  `none` models a panic: the
`to_u64(...).expect(...)` when `protocol_fees` is not a `u64`, and the
unchecked `output.coin - fees` underflow when the fees exceed the coin
balance (a debug-build panic; release builds wrap, equally outside the
function's advertised behaviour).  A zero reserve of the second asset
yields `nonfinite` (`x / 0.0` in `f64` is `inf` or `NaN`). -/
def PoolDatum.raw_price (pd : PoolDatum) (output : TxOutput) : Option RawPrice :=
  let asset_a := inlineToAssetId pd.assets.1
  let asset_b := inlineToAssetId pd.assets.2
  let reserves_a? : Option Nat :=
    if asset_a.is_ada then
      match to_u64 pd.protocol_fees with
      | none => none
      | some fees => if fees ≤ output.coin then some (output.coin - fees) else none
    else some (asset_amount output asset_a)
  match reserves_a? with
  | none => none
  | some reserves_a =>
    let reserves_b := asset_amount output asset_b
    if reserves_b = 0 then some .nonfinite
    else some (.finite ((reserves_a : ℚ) / (reserves_b : ℚ)))

/-- `lib.rs`: `Network`. -/
inductive Network where
  | preview
  | mainnet
deriving DecidableEq, Repr

/-- `lib.rs`: `Network::to_unix_time` — `(slot + offset) * 1000` in `u64`
arithmetic (wraps modulo `2^64` in release builds). -/
def Network.to_unix_time (n : Network) (slot : Nat) : Nat :=
  let offset : Nat := match n with
    | .preview => 1666656000
    | .mainnet => 1591566291
  ((slot + offset) * 1000) % 2 ^ 64

/-- `lib.rs`: `ManagedStrategy` — a custody order under management. -/
structure ManagedStrategy where
  slot : Nat
  output : OutputReference
  utxo : TxOutput
  order : OrderDatum
deriving DecidableEq, Repr

/-- `lib.rs`: `PoolState` — a parsed pool snapshot. -/
structure PoolState where
  slot : Nat
  output : OutputReference
  utxo : TxOutput
  pool_datum : PoolDatum
deriving DecidableEq, Repr

/-- `lib.rs`: `PoolState::is_correct_pool` — explicit identifier match, or
the unordered asset pair in either orientation. -/
def PoolState.is_correct_pool (ps : PoolState) (order : OrderDatum)
    (token_a token_b : AssetId) : Bool :=
  match order.pool_ident with
  | some specific_pool => decide (ps.pool_datum.identifier = specific_pool)
  | none =>
    let asset_a := ps.pool_datum.assets.1
    let asset_b := ps.pool_datum.assets.2
    (token_a.eqInline asset_a && token_b.eqInline asset_b) ||
    (token_a.eqInline asset_b && token_b.eqInline asset_a)

/-- `lib.rs`: `PoolState::price` — raw price scaled by
`10^(token_a_decimals - token_b_decimals)` (a non-finite raw price stays
non-finite under scaling). -/
def PoolState.price (ps : PoolState) (token_a_decimals token_b_decimals : Nat) :
    Option RawPrice :=
  match ps.pool_datum.raw_price ps.utxo with
  | none => none
  | some .nonfinite => some .nonfinite
  | some (.finite q) =>
    some (.finite (q * (10 : ℚ) ^ ((token_a_decimals : ℤ) - (token_b_decimals : ℤ))))

/-- `lib.rs`: `PoolState::get_validity_range` — `now ± seconds·1000` with
saturating multiplication, subtraction and addition. -/
def PoolState.get_validity_range (ps : PoolState) (network : Network)
    (seconds : Nat) : Interval :=
  let now_ms := network.to_unix_time ps.slot
  let delta_ms := satMul seconds 1000
  Interval.inclusive_range (satSub now_ms delta_ms) (satAdd now_ms delta_ms)

/-- `types.rs`: `StrategyExecution` — the trade instruction handed to the
relay (signature and transport are out of scope). -/
structure StrategyExecution where
  tx_ref : OutputReference
  validity_range : Interval
  details : Order
  extensions : Bytes
deriving DecidableEq, Repr

/-! ## Custody ledger (`lib.rs`: `handle_strategy_order`, `handle_tx`)

The `managed_orders` key of the kv store is the `List ManagedStrategy`
threaded through the handlers.  Strategy callbacks never rewrite that key
(the three workers only touch their own `grid_state:*` / `peak_price:*`
keys), so they are omitted from the custody model. -/

/-- A spendable-output sighting, carrying the order-datum parse result
(`types::try_parse::<OrderDatum>` applied to the datum bytes). -/
structure UtxoEvent where
  block_slot : Nat
  tx_hash : Bytes
  index : Nat
  utxo : TxOutput
  parsed_order : Option OrderDatum
deriving DecidableEq, Repr

/-- One input of a whole-transaction sighting. -/
structure TxInput where
  tx_hash : Bytes
  output_index : Nat
deriving DecidableEq, Repr

/-- A whole-transaction sighting. -/
structure TxEvent where
  block_slot : Nat
  hash : Bytes
  inputs : List TxInput
deriving DecidableEq, Repr

/-- The two event shapes that touch the custody ledger. -/
inductive Event where
  | utxo (e : UtxoEvent)
  | tx (t : TxEvent)
deriving DecidableEq, Repr

/-- The `OutputReference` of an output sighting. -/
def UtxoEvent.ref (e : UtxoEvent) : OutputReference :=
  ⟨⟨e.tx_hash⟩, e.index⟩

/-- `lib.rs`: `handle_strategy_order` — parse the datum, keep only strategy
orders whose authorization signer equals the configured signing key, and
append a `ManagedStrategy` to the custody list (no de-duplication). -/
def handle_strategy_order (key : Bytes) (e : UtxoEvent)
    (store : List ManagedStrategy) : List ManagedStrategy :=
  match e.parsed_order with
  | none => store
  | some datum =>
    match datum.details with
    | .strategy (.signature signer) =>
      if signer = key then
        store ++ [⟨e.block_slot, e.ref, e.utxo, datum⟩]
      else store
    | .swap _ _ => store

/-- `lib.rs`: `handle_tx`'s spent test — some input matches the order's
reference exactly on `(transaction_id, output_index)`. -/
def spent_by (t : TxEvent) (m : ManagedStrategy) : Bool :=
  t.inputs.any (fun i =>
    decide (i.tx_hash = m.output.transaction_id.bytes ∧
            i.output_index = m.output.output_index))

/-- `lib.rs`: `handle_tx` — retain exactly the orders not spent by the
transaction and rewrite the list. -/
def handle_tx (t : TxEvent) (store : List ManagedStrategy) :
    List ManagedStrategy :=
  store.filter (fun m => ! spent_by t m)

/-- One custody-ledger step: output sightings add (when owned), transaction
sightings remove (when spent). -/
def handle_event (key : Bytes) (ev : Event) (store : List ManagedStrategy) :
    List ManagedStrategy :=
  match ev with
  | .utxo e => handle_strategy_order key e store
  | .tx t => handle_tx t store

/-- The custody ledger after a sequence of handled events. -/
def run_events (key : Bytes) (evs : List Event)
    (store : List ManagedStrategy) : List ManagedStrategy :=
  evs.foldl (fun s ev => handle_event key ev s) store

/-- The `OutputReference`s of the output sightings of an event sequence, in
order. -/
def sighting_refs (evs : List Event) : List OutputReference :=
  evs.filterMap (fun ev =>
    match ev with
    | .utxo e => some e.ref
    | .tx _ => none)

/-! ## Key-value store model

`kv::get` / `kv::set` over a single worker-local store, modelled as an
association list from key to whole value (the store only exposes
whole-value get/set per key). -/

/-- Modelled from the spec: `kv::get` (the module `kv` of the shared
library is not among the sources; spec §6 specifies the store as opaque
whole-value `get<T>(key) → T or absent`).  The value stored under a key,
if any. -/
def alist_get {K V : Type} [DecidableEq K] (k : K) (st : List (K × V)) :
    Option V :=
  match st with
  | [] => none
  | p :: rest => if p.1 = k then some p.2 else alist_get k rest

/-- Modelled from the spec: `kv::set` (spec §6, `set<T>(key, value)`) —
overwrite the value stored under a key, inserting when absent. -/
def alist_put {K V : Type} [DecidableEq K] (k : K) (v : V)
    (st : List (K × V)) : List (K × V) :=
  match st with
  | [] => [(k, v)]
  | p :: rest => if p.1 = k then (k, v) :: rest else p :: alist_put k v rest

namespace StopLoss

/-- `stop-loss/src/config.rs`: `StopLossConfig`. -/
structure StopLossConfig where
  network : Network
  token_a : AssetId
  token_a_decimals : Nat
  token_b : AssetId
  token_b_decimals : Nat
  sell_token : AssetId
  execution_price : ℚ
deriving DecidableEq, Repr

/-- `stop-loss/src/config.rs`: `trade_direction` — the buy asset and the
price factor: selling `token_a` buys `token_b` at `1 / execution_price`,
anything else buys `token_a` at `execution_price`. -/
def trade_direction (cfg : StopLossConfig) : Bytes × Bytes × ℚ :=
  if cfg.sell_token = cfg.token_a then
    (cfg.token_b.policy_id, cfg.token_b.asset_name, 1 / cfg.execution_price)
  else
    (cfg.token_a.policy_id, cfg.token_a.asset_name, cfg.execution_price)

/-- `stop-loss/src/lib.rs`: `trigger_sell` — sell the full `sell_token`
balance of the order's output; minimum received is
`give_amount * factor` cast `as u64` (truncated, clamped to `u64`). -/
def trigger_sell (cfg : StopLossConfig) (validity_range : Interval)
    (order : ManagedStrategy) : StrategyExecution :=
  let give_amount := asset_amount order.utxo cfg.sell_token
  let dir := trade_direction cfg
  let receive_amount :=
    min (Int.toNat (Int.floor ((give_amount : ℚ) * dir.2.2))) U64_MAX
  ⟨order.output, validity_range,
    .swap (cfg.sell_token.policy_id, cfg.sell_token.asset_name, give_amount)
          (dir.1, dir.2.1, receive_amount), []⟩

/-- `stop-loss/src/lib.rs`: `on_new_pool_state` — for each live order
relevant to the configured pair, compute the decimal-adjusted pool price
and emit one sell instruction exactly when it is strictly below the
configured execution price.  `none` models the invocation dying in the
price computation; a non-finite price (`inf`/`NaN`) compares false against
the threshold and emits nothing.  `step_order` is one iteration of the
strategy loop. -/
def step_order (cfg : StopLossConfig) (pool_state : PoolState)
    (acc : Option (List StrategyExecution)) (s : ManagedStrategy) :
    Option (List StrategyExecution) :=
  match acc with
  | none => none
  | some out =>
    if pool_state.is_correct_pool s.order cfg.token_a cfg.token_b then
      match pool_state.price cfg.token_a_decimals cfg.token_b_decimals with
      | none => none
      | some .nonfinite => some out
      | some (.finite p) =>
        if p < cfg.execution_price then
          some (out ++
            [trigger_sell cfg (pool_state.get_validity_range cfg.network 20) s])
        else some out
    else some out

/-- `stop-loss/src/lib.rs`: `on_new_pool_state` — fold of `step_order`
over the live orders. -/
def on_new_pool_state (cfg : StopLossConfig) (pool_state : PoolState)
    (strategies : List ManagedStrategy) : Option (List StrategyExecution) :=
  strategies.foldl (step_order cfg pool_state) (some [])

end StopLoss

namespace SymmetricalGrid

/-- `symmetrical-grid/src/config.rs`: `Config`. -/
structure Config where
  network : Network
  strategy_token : AssetId
  base_token : AssetId
  spacing_percent : ℚ
  levels_per_side : Nat
deriving DecidableEq, Repr

/-- `symmetrical-grid/src/lib.rs`: `GridState`. -/
structure GridState where
  center_price : ℚ
  line_offset : ℤ
  init_strat : Nat
  init_base : Nat
deriving DecidableEq, Repr

/-- `symmetrical-grid/src/lib.rs`: `GridState::new` — center at the current
pool price, offset `0`, initial balances from the order's output. -/
def GridState.new (strategy : ManagedStrategy) (pool_price : ℚ)
    (config : Config) : GridState :=
  ⟨pool_price, 0,
    asset_amount strategy.utxo config.strategy_token,
    asset_amount strategy.utxo config.base_token⟩

/-- `symmetrical-grid/src/lib.rs`: `compute_grid_prices` —
`center / (1+spacing)^i` for `i = levels..1`, then
`center * (1+spacing)^i` for `i = 1..levels` (ascending, center excluded). -/
def compute_grid_prices (center_price spacing_percent : ℚ)
    (levels_per_side : Nat) : List ℚ :=
  let step := 1 + spacing_percent
  ((List.range levels_per_side).map
      (fun j => center_price / step ^ (levels_per_side - j))) ++
  ((List.range levels_per_side).map (fun j => center_price * step ^ (j + 1)))

/-- `symmetrical-grid/src/lib.rs`: `compute_crossed_prices` — the new
offset is the count of grid lines strictly below the price; the crossed
slice is `grid[prev..new]` (reversed when moving down). -/
def compute_crossed_prices (grid_prices : List ℚ) (previous_offset : ℤ)
    (price : ℚ) : ℤ × List ℚ :=
  let new_offset : ℤ :=
    (grid_prices.takeWhile (fun p => decide (p < price))).length
  let prices :=
    if previous_offset < new_offset then
      (grid_prices.drop previous_offset.toNat).take
        (new_offset - previous_offset).toNat
    else if new_offset < previous_offset then
      ((grid_prices.drop new_offset.toNat).take
        (previous_offset - new_offset).toNat).reverse
    else []
  (new_offset, prices)

/-- `symmetrical-grid/src/lib.rs`: `trigger_buy_strategy` — swap base for
strategy token. -/
def trigger_buy_strategy (config : Config) (validity_range : Interval)
    (strategy : ManagedStrategy) (sell_amt buy_amt : Nat) :
    StrategyExecution :=
  ⟨strategy.output, validity_range,
    .swap (config.base_token.policy_id, config.base_token.asset_name, sell_amt)
          (config.strategy_token.policy_id, config.strategy_token.asset_name,
            buy_amt), []⟩

/-- `symmetrical-grid/src/lib.rs`: `trigger_sell_strategy` — swap strategy
token for base. -/
def trigger_sell_strategy (config : Config) (validity_range : Interval)
    (strategy : ManagedStrategy) (sell_amt buy_amt : Nat) :
    StrategyExecution :=
  ⟨strategy.output, validity_range,
    .swap (config.strategy_token.policy_id,
            config.strategy_token.asset_name, sell_amt)
          (config.base_token.policy_id, config.base_token.asset_name,
            buy_amt), []⟩

/-- The kv store of the grid worker: one `GridState` per
`grid_state:{auth}` key. -/
abbrev GridStore := List (StrategyAuthorization × GridState)

/-- `symmetrical-grid/src/lib.rs`: one iteration of the strategy loop of
`on_new_pool_state` — the code's `continue` paths return the store
unchanged with no instruction. -/
def step_strategy (config : Config) (pool_state : PoolState)
    (pool_price : ℚ) (s : ManagedStrategy) (store : GridStore) :
    GridStore × List StrategyExecution :=
  if pool_state.is_correct_pool s.order config.strategy_token
      config.base_token then
    match s.order.details with
    | .swap _ _ => (store, [])
    | .strategy auth =>
      let strategy_amt := asset_amount s.utxo config.strategy_token
      let base_amt := asset_amount s.utxo config.base_token
      if strategy_amt = 0 ∧ base_amt = 0 then (store, [])
      else
        let grid_state :=
          (alist_get auth store).getD (GridState.new s pool_price config)
        let grid_prices := compute_grid_prices grid_state.center_price
          config.spacing_percent config.levels_per_side
        let crossed :=
          compute_crossed_prices grid_prices grid_state.line_offset pool_price
        if crossed.2 = [] then (store, [])
        else
          let validity_range :=
            pool_state.get_validity_range config.network 20
          if grid_state.line_offset < crossed.1 then
            let sell_per_grid := grid_state.init_strat / config.levels_per_side
            if sell_per_grid = 0 then (store, [])
            else
              let max_fillable := strategy_amt / sell_per_grid
              if max_fillable = 0 then (store, [])
              else
                let grids_to_fill := min crossed.2.length max_fillable
                let prices_to_fill := crossed.2.take grids_to_fill
                let sell_amt := sell_per_grid * grids_to_fill
                let buy_amt := min (Int.toNat (Int.floor
                  ((prices_to_fill.map
                    (fun p => (sell_per_grid : ℚ) * p)).sum))) U64_MAX
                (alist_put auth
                  ⟨grid_state.center_price,
                    grid_state.line_offset + grids_to_fill,
                    grid_state.init_strat, grid_state.init_base⟩ store,
                 [trigger_sell_strategy config validity_range s sell_amt
                    buy_amt])
          else
            let sell_per_grid := grid_state.init_base / config.levels_per_side
            if sell_per_grid = 0 then (store, [])
            else
              let max_fillable := base_amt / sell_per_grid
              if max_fillable = 0 then (store, [])
              else
                let grids_to_fill := min crossed.2.length max_fillable
                let prices_to_fill := crossed.2.take grids_to_fill
                let sell_amt := sell_per_grid * grids_to_fill
                let buy_amt := min (Int.toNat (Int.floor
                  ((prices_to_fill.map
                    (fun p => (sell_per_grid : ℚ) / p)).sum))) U64_MAX
                (alist_put auth
                  ⟨grid_state.center_price,
                    grid_state.line_offset - grids_to_fill,
                    grid_state.init_strat, grid_state.init_base⟩ store,
                 [trigger_buy_strategy config validity_range s sell_amt
                    buy_amt])
  else (store, [])

/-- `symmetrical-grid/src/lib.rs`: `on_new_pool_state` at a finite raw pool
price (`pool_state.pool_datum.raw_price`): fold the strategy loop over the
live orders, threading the kv store. -/
def on_new_pool_state (config : Config) (pool_state : PoolState)
    (pool_price : ℚ) (strategies : List ManagedStrategy)
    (store : GridStore) : GridStore × List StrategyExecution :=
  strategies.foldl (fun acc s =>
    let r := step_strategy config pool_state pool_price s acc.1
    (r.1, acc.2 ++ r.2)) (store, [])

end SymmetricalGrid

namespace TrailingStop

/-- `trailing-stop-loss/src/config.rs`: `Config` (validation happens at
deserialization; the model carries the validated fields). -/
structure Config where
  network : Network
  position_token : AssetId
  exit_token : AssetId
  trail_percent : ℚ
  slippage_tolerance : ℚ
  entry_price : Option ℚ
deriving DecidableEq, Repr

/-- The kv store of the trailing-stop worker: one peak price per
`peak_price:{tx_hash}#{index}` key. -/
abbrev PeakStore := List (OutputReference × ℚ)

/-- `trailing-stop-loss/src/lib.rs`: `trigger_exit` — sell the full
position balance; minimum received is
`amount * trigger_price * (1 - slippage)` cast `as u64`, floored at 1;
the validity window is `now ± 20 minutes` with saturating arithmetic. -/
def trigger_exit (config : Config) (now : Nat) (strategy : ManagedStrategy)
    (trigger_price : ℚ) : StrategyExecution :=
  let validity_range :=
    Interval.inclusive_range (satSub now 1200000) (satAdd now 1200000)
  let position_amount := asset_amount strategy.utxo config.position_token
  let expected_output := (position_amount : ℚ) * trigger_price
  let min_received := min (Int.toNat (Int.floor
    (expected_output * (1 - config.slippage_tolerance)))) U64_MAX
  let min_received := max min_received 1
  ⟨strategy.output, validity_range,
    .swap (config.position_token.policy_id,
            config.position_token.asset_name, position_amount)
          (config.exit_token.policy_id, config.exit_token.asset_name,
            min_received), []⟩

/-- `trailing-stop-loss/src/lib.rs`: the per-strategy body of
`on_new_pool_state` — initialize the peak from `entry_price` or the pool
price, raise it when the pool price exceeds it, and emit one exit when the
pool price is strictly below `peak * (1 - trail_percent)`. -/
def step_strategy (config : Config) (pool_price : ℚ) (now : Nat)
    (strategy : ManagedStrategy) (peaks : PeakStore) :
    PeakStore × List StrategyExecution :=
  let stored_peak := alist_get strategy.output peaks
  let updated : PeakStore × ℚ :=
    match stored_peak with
    | none =>
      let initial_peak := config.entry_price.getD pool_price
      (alist_put strategy.output initial_peak peaks, initial_peak)
    | some peak =>
      if peak < pool_price then
        (alist_put strategy.output pool_price peaks, pool_price)
      else (peaks, peak)
  let trigger_price := updated.2 * (1 - config.trail_percent)
  if pool_price < trigger_price then
    (updated.1, [trigger_exit config now strategy trigger_price])
  else (updated.1, [])

/-- `trailing-stop-loss/src/lib.rs`: the `active` filter of
`on_new_pool_state` — live orders relevant to the configured pair that
still hold a positive position-token balance. -/
def active_strategies (config : Config) (pool_state : PoolState)
    (strategies : List ManagedStrategy) : List ManagedStrategy :=
  (strategies.filter (fun s =>
    pool_state.is_correct_pool s.order config.position_token
      config.exit_token)).filter
    (fun s => decide (0 < asset_amount s.utxo config.position_token))

/-- `trailing-stop-loss/src/lib.rs`: `on_new_pool_state` at a given
position price (`get_position_price`): when no strategy is active the
handler returns at once, leaving every stored peak untouched; otherwise it
runs the per-strategy body for each active strategy. -/
def on_new_pool_state (config : Config) (pool_state : PoolState)
    (pool_price : ℚ) (now : Nat) (strategies : List ManagedStrategy)
    (peaks : PeakStore) : PeakStore × List StrategyExecution :=
  (active_strategies config pool_state strategies).foldl (fun acc s =>
    let r := step_strategy config pool_price now s acc.1
    (r.1, acc.2 ++ r.2)) (peaks, [])

/-- A sequence of pool snapshots fed to the trailing-stop worker: each
entry is (pool snapshot, its position price, its wall-clock time, the live
custody orders at that point).  Returns the final peak store and the
instructions emitted at each step. -/
def run_snapshots (config : Config)
    (inputs : List (PoolState × ℚ × Nat × List ManagedStrategy))
    (peaks : PeakStore) : PeakStore × List (List StrategyExecution) :=
  inputs.foldl (fun acc i =>
    let r := on_new_pool_state config i.1 i.2.1 i.2.2.1 i.2.2.2 acc.1
    (r.1, acc.2 ++ [r.2])) (peaks, [])

end TrailingStop

/-! ## Concrete inputs used by the witnesses and counterexamples below -/

namespace Examples

/-- ADA (both components empty). -/
def ada : AssetId := ⟨[], []⟩

/-- A non-ADA token under policy `[5]`. -/
def tokenS : AssetId := ⟨[5], [5]⟩

/-- A non-ADA token under policy `[1]`. -/
def tokenP : AssetId := ⟨[1], [1]⟩

/-- A non-ADA token under policy `[2]`. -/
def tokenB : AssetId := ⟨[2], [2]⟩

/-- The worker's configured signing key. -/
def exKey : Bytes := [7]

/-- A strategy-order datum whose authorization signer is the worker key. -/
def exOrder : OrderDatum :=
  ⟨none, .signature [1], .int 0, .self_, .strategy (.signature [7]), []⟩

/-- A plain output holding only coin. -/
def exOut : TxOutput := ⟨2000000, []⟩

/-- An owned-order output sighting at `[3,4]#0`. -/
def exSighting : UtxoEvent := ⟨100, [3, 4], 0, exOut, some exOrder⟩

/-- The `OutputReference` of `exSighting`. -/
def exRef : OutputReference := ⟨⟨[3, 4]⟩, 0⟩

/-- A transaction sighting spending nothing of interest. -/
def exTx : TxEvent := ⟨101, [6], [⟨[9, 9], 0⟩]⟩

/-- The event sequence of the custody witness: one owned sighting, then an
unrelated transaction. -/
def exEvents : List Event := [.utxo exSighting, .tx exTx]

/-- Stop-loss configuration selling the second configured asset
(`sell_token = token_b`) at execution price 2. -/
def slCfg : StopLoss.StopLossConfig := ⟨.preview, ada, 0, tokenB, 0, tokenB, 2⟩

/-- A pool datum over (ADA, tokenB) with 1000 accrued protocol fees. -/
def slPoolDatum : PoolDatum :=
  ⟨[9], (([], []), ([2], [2])), .int 0, .int 0, .int 0, none, .int 0, .int 1000⟩

/-- The pool output: 3000 lovelace (2000 after fees) and 1000 tokenB. -/
def slPoolOut : TxOutput := ⟨3000, [⟨[2], [⟨[2], 1000⟩]⟩]⟩

/-- A pool snapshot whose decimal-adjusted price is exactly 2. -/
def slPool : PoolState := ⟨50, ⟨⟨[8]⟩, 0⟩, slPoolOut, slPoolDatum⟩

/-- A managed order relevant to the (ADA, tokenB) pair. -/
def slStrategy : ManagedStrategy := ⟨100, exRef, exOut, exOrder⟩

/-- Grid configuration: strategy token `tokenS` against ADA, 5% spacing,
3 levels per side. -/
def gridCfg : SymmetricalGrid.Config := ⟨.preview, tokenS, ada, 1/20, 3⟩

/-- The grid order's authorization. -/
def gridAuth : StrategyAuthorization := .signature [9]

/-- The grid order datum. -/
def gridOrder : OrderDatum :=
  ⟨none, .signature [1], .int 0, .self_, .strategy gridAuth, []⟩

/-- The grid order's output: 100 lovelace of base and 50 tokenS. -/
def gridOut : TxOutput := ⟨100, [⟨[5], [⟨[5], 50⟩]⟩]⟩

/-- The managed grid order. -/
def gridStrategy : ManagedStrategy := ⟨100, exRef, gridOut, gridOrder⟩

/-- A pool datum over (ADA, tokenS). -/
def gridPoolDatum : PoolDatum :=
  ⟨[9], (([], []), ([5], [5])), .int 0, .int 0, .int 0, none, .int 0, .int 0⟩

/-- A pool snapshot for the grid pair (the grid logic only reads its datum
and slot). -/
def gridPool : PoolState := ⟨50, ⟨⟨[8]⟩, 0⟩, ⟨0, []⟩, gridPoolDatum⟩

/-- A stored grid state: center 1, offset 0, and an initial strategy-token
amount (2) smaller than `levels_per_side` (3), so the per-line slice is 0. -/
def gridStore0 : SymmetricalGrid.GridStore := [(gridAuth, ⟨1, 0, 2, 300⟩)]

/-- Trailing-stop configuration: protect `tokenP`, exit to ADA,
`trail_percent = 0.15`, `slippage_tolerance = 0.03`, no entry price. -/
def tslCfg : TrailingStop.Config := ⟨.preview, tokenP, ada, 3/20, 3/100, none⟩

/-- The trailing-stop order datum. -/
def tslOrder : OrderDatum :=
  ⟨none, .signature [1], .int 0, .self_, .strategy (.signature [9]), []⟩

/-- The protected position: 1000 tokenP. -/
def tslOut : TxOutput := ⟨2000000, [⟨[1], [⟨[1], 1000⟩]⟩]⟩

/-- The managed trailing-stop order. -/
def tslStrategy : ManagedStrategy := ⟨100, exRef, tslOut, tslOrder⟩

/-- A pool datum over (ADA, tokenP). -/
def tslPoolDatum : PoolDatum :=
  ⟨[9], (([], []), ([1], [1])), .int 0, .int 0, .int 0, none, .int 0, .int 0⟩

/-- A pool snapshot for the trailing-stop pair. -/
def tslPool : PoolState := ⟨50, ⟨⟨[8]⟩, 0⟩, ⟨0, []⟩, tslPoolDatum⟩

/-- An order that no longer holds any of the position token. -/
def tslEmptyStrategy : ManagedStrategy := ⟨100, exRef, exOut, tslOrder⟩

/-- A peak store holding peak 150 for `exRef`. -/
def tslPeaks0 : TrailingStop.PeakStore := [(exRef, 150)]

/-- The claim C3 snapshot sequence: prices 100, 120, 150, 125 against the
live trailing-stop order. -/
def tslInputs : List (PoolState × ℚ × Nat × List ManagedStrategy) :=
  [(tslPool, 100, 0, [tslStrategy]), (tslPool, 120, 0, [tslStrategy]),
   (tslPool, 150, 0, [tslStrategy]), (tslPool, 125, 0, [tslStrategy])]

/-- A pool datum whose first asset is ADA and whose `protocol_fees` is a
bignum (not representable as `u64`). -/
def badFeesPoolDatum : PoolDatum :=
  ⟨[9], (([], []), ([2], [2])), .int 0, .int 0, .int 0, none, .int 0,
    .bigUInt [1]⟩

/-- A pool datum over two non-ADA assets whose second asset has no reserve
in `emptyReservePoolOut`. -/
def zeroReservePoolDatum : PoolDatum :=
  ⟨[9], (([5], [5]), ([2], [2])), .int 0, .int 0, .int 0, none, .int 0,
    .int 0⟩

/-- An output with some of the first asset and none of the second. -/
def zeroReservePoolOut : TxOutput := ⟨3000, [⟨[5], [⟨[5], 10⟩]⟩]⟩

/-- Stop-loss configuration selling the first configured asset
(`sell_token = token_a = ADA`). -/
def slCfgA : StopLoss.StopLossConfig := ⟨.preview, ada, 0, tokenB, 0, ada, 2⟩

/-- A pool slot at which `to_unix_time` wraps to exactly 0
(`(slot + 1666656000) * 1000 = 1000 * 2^64`). -/
def wrapPool : PoolState :=
  ⟨18446744072042895616, ⟨⟨[8]⟩, 0⟩, ⟨0, []⟩, slPoolDatum⟩

end Examples

/-! ## Helper lemmas -/

theorem to_unix_time_lt (network : Network) (slot : Nat) :
    network.to_unix_time slot < 2 ^ 64 := by
  cases network <;> exact Nat.mod_lt _ (by norm_num)

theorem alist_get_put_self {K V : Type} [DecidableEq K] (k : K) (v : V)
    (st : List (K × V)) : alist_get k (alist_put k v st) = some v := by
  induction st with
  | nil => simp [alist_get, alist_put]
  | cons p rest ih =>
    by_cases h : p.1 = k
    · simp [alist_get, alist_put, h]
    · simp [alist_get, alist_put, h, ih]

theorem alist_get_put_other {K V : Type} [DecidableEq K] (k k' : K) (v : V)
    (st : List (K × V)) (h : k' ≠ k) :
    alist_get k' (alist_put k v st) = alist_get k' st := by
  induction st with
  | nil => simp [alist_get, alist_put, Ne.symm h]
  | cons p rest ih =>
    by_cases hp : p.1 = k
    · simp [alist_get, alist_put, hp, Ne.symm h]
    · simp only [alist_put, if_neg hp, alist_get]
      by_cases hp' : p.1 = k'
      · simp [hp']
      · simp [hp', ih]

/-! ## Claim theorems -/

/-- Claim C9: handling a whole-transaction sighting removes from the
custody list exactly those orders whose `OutputReference` matches some
input of the transaction on both `transaction_id` and `output_index`;
every other order is retained (multiplicity preserved), regardless of the
list's order. -/
theorem release_spent_c9 (t : TxEvent) (store : List ManagedStrategy)
    (m : ManagedStrategy) :
    (m ∈ handle_tx t store ↔ m ∈ store ∧ spent_by t m = false) ∧
    (List.count m (handle_tx t store) =
      if spent_by t m then 0 else List.count m store) ∧
    (spent_by t m = true ↔ ∃ i ∈ t.inputs,
      i.tx_hash = m.output.transaction_id.bytes ∧
      i.output_index = m.output.output_index) ∧
    (∀ store' : List ManagedStrategy, store.Perm store' →
      (handle_tx t store).Perm (handle_tx t store')) := by
  refine ⟨?_, ?_, ?_, ?_⟩
  · simp [handle_tx, List.mem_filter, Bool.not_eq_true']
  · by_cases hs : spent_by t m
    · rw [if_pos hs]
      refine List.count_eq_zero.mpr ?_
      simp [handle_tx, List.mem_filter, hs]
    · rw [if_neg hs]
      exact List.count_filter (by simp [hs])
  · simp [spent_by, List.any_eq_true]
  · intro store' hperm
    exact hperm.filter _

/-- Claim C2 (evaluation at the claimed scenario): with center 1, spacing
0.05 and 3 levels per side, the grid lines are the compounded values
`1.05^k` and `1/1.05^k` (so 1.10 is not a grid line — the second line above
center is 1.1025); from stored offset 0, a snapshot at price 1.101 crosses
4 lines (the three below-center lines plus 1.05), not 2; even a snapshot at
the center price 1.0 itself reports 3 crossings from offset 0; and from
offset 4 a snapshot back at 1.0 leaves the offset at 3, not 0. -/
theorem grid_crossings_c2 :
    SymmetricalGrid.compute_grid_prices 1 (1/20) 3 =
      [8000/9261, 400/441, 20/21, 21/20, 441/400, 9261/8000] ∧
    (SymmetricalGrid.compute_crossed_prices
      (SymmetricalGrid.compute_grid_prices 1 (1/20) 3) 0 (1101/1000)).1 = 4 ∧
    (SymmetricalGrid.compute_crossed_prices
      (SymmetricalGrid.compute_grid_prices 1 (1/20) 3) 0 (1101/1000)).2 =
      [8000/9261, 400/441, 20/21, 21/20] ∧
    (SymmetricalGrid.compute_crossed_prices
      (SymmetricalGrid.compute_grid_prices 1 (1/20) 3) 0 1).1 = 3 ∧
    (SymmetricalGrid.compute_crossed_prices
      (SymmetricalGrid.compute_grid_prices 1 (1/20) 3) 4 1).1 = 3 := by
  refine ⟨?_, ?_, ?_, ?_, ?_⟩ <;>
    norm_num [SymmetricalGrid.compute_crossed_prices,
      SymmetricalGrid.compute_grid_prices, List.range_succ, List.takeWhile,
      Int.toNat]

/-- Claim C8: the validity window of a trade instruction is the inclusive
range `[now - tolerance*1000, now + tolerance*1000]` with
`now = (slot + genesis_offset) * 1000` milliseconds, computed with
saturating arithmetic: the tolerance scaling, the lower bound and the upper
bound all saturate, the lower bound clamps at 0 rather than wrapping (in
particular it is 0 whenever `now = 0`), and neither bound exceeds
`u64::MAX`. -/
theorem validity_window_c8 (ps : PoolState) (network : Network)
    (seconds : Nat) :
    ps.get_validity_range network seconds =
      Interval.inclusive_range
        (satSub (network.to_unix_time ps.slot) (satMul seconds 1000))
        (satAdd (network.to_unix_time ps.slot) (satMul seconds 1000)) ∧
    (∀ t, (ps.get_validity_range network seconds).contains t ↔
      satSub (network.to_unix_time ps.slot) (satMul seconds 1000) ≤ t ∧
      t ≤ satAdd (network.to_unix_time ps.slot) (satMul seconds 1000)) ∧
    satMul seconds 1000 = min (seconds * 1000) U64_MAX ∧
    ((satSub (network.to_unix_time ps.slot) (satMul seconds 1000) : ℤ) =
      max ((network.to_unix_time ps.slot : ℤ) - (satMul seconds 1000 : ℤ)) 0) ∧
    satSub (network.to_unix_time ps.slot) (satMul seconds 1000) ≤ U64_MAX ∧
    satAdd (network.to_unix_time ps.slot) (satMul seconds 1000) ≤ U64_MAX ∧
    (network.to_unix_time ps.slot = 0 →
      satSub (network.to_unix_time ps.slot) (satMul seconds 1000) = 0) := by
  refine ⟨rfl, ?_, rfl, ?_, ?_, ?_, ?_⟩
  · intro t
    simp [PoolState.get_validity_range, Interval.inclusive_range,
      Interval.contains]
  · simp only [satSub]
    omega
  · have h := to_unix_time_lt network ps.slot
    have : satSub (network.to_unix_time ps.slot) (satMul seconds 1000) ≤
        network.to_unix_time ps.slot := Nat.sub_le _ _
    unfold U64_MAX
    omega
  · exact min_le_right _ _
  · intro h
    simp [satSub, h]

/-- Claim C8 witness: at the slot where `to_unix_time` is 0 and a positive
tolerance of 5 seconds, the lower bound of the validity window clamps to
exactly 0. -/
theorem validity_window_c8_witness :
    Network.to_unix_time .preview Examples.wrapPool.slot = 0 ∧
    satSub (Network.to_unix_time .preview Examples.wrapPool.slot)
      (satMul 5 1000) = 0 := by
  have h0 : Network.to_unix_time .preview Examples.wrapPool.slot = 0 := by
    norm_num [Network.to_unix_time, Examples.wrapPool]
  exact ⟨h0, (validity_window_c8 Examples.wrapPool .preview 5).2.2.2.2.2.2 h0⟩

/-- Claim C10: `raw_price` is partial at its public interface — when the
pool's first asset is ADA it panics whenever `protocol_fees` is not
representable as `u64`, or exceeds the output's coin balance (modelled as
`none`); and whenever it does return a value while the second asset's
reserve is zero, that value is the non-finite float produced by the `f64`
division, not an error. -/
theorem raw_price_edge_cases_c10 (pd : PoolDatum) (output : TxOutput) :
    ((inlineToAssetId pd.assets.1).is_ada = true →
      to_u64 pd.protocol_fees = none → pd.raw_price output = none) ∧
    (∀ fees, (inlineToAssetId pd.assets.1).is_ada = true →
      to_u64 pd.protocol_fees = some fees → output.coin < fees →
      pd.raw_price output = none) ∧
    (∀ r, pd.raw_price output = some r →
      asset_amount output (inlineToAssetId pd.assets.2) = 0 →
      r = RawPrice.nonfinite) := by
  refine ⟨?_, ?_, ?_⟩
  · intro hada hfees
    simp [PoolDatum.raw_price, hada, hfees]
  · intro fees hada hfees hlt
    simp [PoolDatum.raw_price, hada, hfees, Nat.not_le.mpr hlt]
  · intro r hr hzero
    unfold PoolDatum.raw_price at hr
    by_cases hada : (inlineToAssetId pd.assets.1).is_ada = true
    · rcases hfees : to_u64 pd.protocol_fees with _ | fees
      · simp [hada, hfees] at hr
      · by_cases hle : fees ≤ output.coin
        · simp [hada, hfees, hle, hzero] at hr
          exact hr.symm
        · simp [hada, hfees, hle] at hr
    · simp only [Bool.not_eq_true] at hada
      simp [hada, hzero] at hr
      exact hr.symm

/-- Claim C10 witness: a pool datum whose first asset is ADA and whose
protocol fees are a bignum makes `raw_price` panic; a pool whose second
asset has no reserve in the output yields the non-finite price. -/
theorem raw_price_edge_cases_c10_witness :
    Examples.badFeesPoolDatum.raw_price Examples.slPoolOut = none ∧
    Examples.zeroReservePoolDatum.raw_price Examples.zeroReservePoolOut =
      some RawPrice.nonfinite := by
  constructor
  · exact (raw_price_edge_cases_c10 Examples.badFeesPoolDatum
      Examples.slPoolOut).1 (by decide) (by decide)
  · decide

/-- Claim C7 (amended): the stop-loss instruction sells the full
`sell_token` balance of the order's output for the opposite configured
asset, with minimum received computed from `execution_price`; and the
price factor is inverted (`1 / execution_price`) exactly when the
configured sell asset is `token_a` — the first configured asset, not the
second. -/
theorem trade_direction_c7 (cfg : StopLoss.StopLossConfig) (vr : Interval)
    (s : ManagedStrategy) :
    (cfg.sell_token = cfg.token_a →
      StopLoss.trade_direction cfg =
        (cfg.token_b.policy_id, cfg.token_b.asset_name,
          1 / cfg.execution_price)) ∧
    (cfg.sell_token ≠ cfg.token_a →
      StopLoss.trade_direction cfg =
        (cfg.token_a.policy_id, cfg.token_a.asset_name,
          cfg.execution_price)) ∧
    StopLoss.trigger_sell cfg vr s =
      ⟨s.output, vr,
        .swap (cfg.sell_token.policy_id, cfg.sell_token.asset_name,
                asset_amount s.utxo cfg.sell_token)
              ((StopLoss.trade_direction cfg).1,
                (StopLoss.trade_direction cfg).2.1,
                min (Int.toNat (Int.floor
                  ((asset_amount s.utxo cfg.sell_token : ℚ) *
                    (StopLoss.trade_direction cfg).2.2))) U64_MAX), []⟩ := by
  refine ⟨fun h => ?_, fun h => ?_, rfl⟩
  · simp [StopLoss.trade_direction, h]
  · simp [StopLoss.trade_direction, h]

/-- Claim C7 counterexample: in a configuration whose sell asset is the
pool's second asset (`sell_token = token_b`, matching `assets.2` of the
pool datum), the price factor is `execution_price` itself, not
`1 / execution_price` — the inversion happens for the first asset, not
the second as claimed. -/
theorem trade_direction_c7_counterexample :
    Examples.slCfg.sell_token.eqInline Examples.slPoolDatum.assets.2 = true ∧
    (StopLoss.trade_direction Examples.slCfg).2.2 =
      Examples.slCfg.execution_price ∧
    (StopLoss.trade_direction Examples.slCfg).2.2 ≠
      1 / Examples.slCfg.execution_price := by
  have hne : Examples.slCfg.sell_token ≠ Examples.slCfg.token_a := by decide
  refine ⟨by decide, ?_, ?_⟩
  · simp [StopLoss.trade_direction, hne]
  · simp only [StopLoss.trade_direction, if_neg hne]
    norm_num [Examples.slCfg]

/-- Claim C7 witness: selling the first configured asset (`token_a`)
produces the inverted factor `1 / execution_price` and buys `token_b`. -/
theorem trade_direction_c7_witness :
    StopLoss.trade_direction Examples.slCfgA =
      (Examples.tokenB.policy_id, Examples.tokenB.asset_name,
        1 / Examples.slCfgA.execution_price) :=
  (trade_direction_c7 Examples.slCfgA (Interval.inclusive_range 0 0)
    Examples.slStrategy).1 rfl

/-- Stop-loss loop: when the price does not trigger, the fold leaves the
accumulator unchanged. -/
theorem stop_loss_foldl_untriggered (cfg : StopLoss.StopLossConfig)
    (ps : PoolState) (p : ℚ)
    (hp : ps.price cfg.token_a_decimals cfg.token_b_decimals =
      some (.finite p))
    (hnlt : ¬ p < cfg.execution_price) :
    ∀ (l : List ManagedStrategy) (out : List StrategyExecution),
      l.foldl (StopLoss.step_order cfg ps) (some out) = some out := by
  intro l
  induction l with
  | nil => intro out; rfl
  | cons s l ih =>
    intro out
    rw [List.foldl_cons]
    by_cases hrel : ps.is_correct_pool s.order cfg.token_a cfg.token_b
    · have hstep : StopLoss.step_order cfg ps (some out) s = some out := by
        simp [StopLoss.step_order, hrel, hp, hnlt]
      rw [hstep, ih]
    · have hstep : StopLoss.step_order cfg ps (some out) s = some out := by
        simp [StopLoss.step_order, hrel]
      rw [hstep, ih]

/-- Stop-loss loop: when the price is strictly below the threshold, the
fold appends exactly one sell instruction per relevant order. -/
theorem stop_loss_foldl_triggered (cfg : StopLoss.StopLossConfig)
    (ps : PoolState) (p : ℚ)
    (hp : ps.price cfg.token_a_decimals cfg.token_b_decimals =
      some (.finite p))
    (hlt : p < cfg.execution_price) :
    ∀ (l : List ManagedStrategy) (out : List StrategyExecution),
      l.foldl (StopLoss.step_order cfg ps) (some out) =
        some (out ++
          (l.filter (fun s =>
            ps.is_correct_pool s.order cfg.token_a cfg.token_b)).map
            (fun s => StopLoss.trigger_sell cfg
              (ps.get_validity_range cfg.network 20) s)) := by
  intro l
  induction l with
  | nil => intro out; simp
  | cons s l ih =>
    intro out
    rw [List.foldl_cons]
    by_cases hrel : ps.is_correct_pool s.order cfg.token_a cfg.token_b
    · have hstep : StopLoss.step_order cfg ps (some out) s =
          some (out ++ [StopLoss.trigger_sell cfg
            (ps.get_validity_range cfg.network 20) s]) := by
        simp [StopLoss.step_order, hrel, hp, hlt]
      rw [hstep, ih]
      simp [List.filter_cons, hrel]
    · have hstep : StopLoss.step_order cfg ps (some out) s = some out := by
        simp [StopLoss.step_order, hrel]
      rw [hstep, ih]
      simp [List.filter_cons, hrel]

/-- Claim C4: for every live order relevant to the configured pair — when
the decimal-adjusted pool price equals `execution_price` exactly, no
instruction is emitted; when it is strictly below, exactly one sell
instruction is emitted per relevant live order. -/
theorem stop_loss_threshold_c4 (cfg : StopLoss.StopLossConfig)
    (ps : PoolState) (strategies : List ManagedStrategy) (p : ℚ)
    (hp : ps.price cfg.token_a_decimals cfg.token_b_decimals =
      some (.finite p)) :
    (p = cfg.execution_price →
      StopLoss.on_new_pool_state cfg ps strategies = some []) ∧
    (p < cfg.execution_price →
      StopLoss.on_new_pool_state cfg ps strategies =
        some ((strategies.filter (fun s =>
          ps.is_correct_pool s.order cfg.token_a cfg.token_b)).map
          (fun s => StopLoss.trigger_sell cfg
            (ps.get_validity_range cfg.network 20) s))) := by
  constructor
  · intro heq
    exact stop_loss_foldl_untriggered cfg ps p hp
      (by rw [heq]; exact lt_irrefl _) strategies []
  · intro hlt
    have h := stop_loss_foldl_triggered cfg ps p hp hlt strategies []
    simpa using h

/-- Claim C4 witness: at a pool snapshot whose decimal-adjusted price is
exactly the execution price (2), the stop-loss worker emits nothing for a
relevant live order. -/
theorem stop_loss_threshold_c4_witness :
    Examples.slPool.price Examples.slCfg.token_a_decimals
      Examples.slCfg.token_b_decimals = some (.finite 2) ∧
    StopLoss.on_new_pool_state Examples.slCfg Examples.slPool
      [Examples.slStrategy] = some [] := by
  have hp : Examples.slPool.price Examples.slCfg.token_a_decimals
      Examples.slCfg.token_b_decimals = some (.finite 2) := by
    norm_num [PoolState.price, PoolDatum.raw_price, Examples.slPool,
      Examples.slPoolDatum, Examples.slPoolOut, Examples.slCfg,
      inlineToAssetId, AssetId.is_ada, to_u64, asset_amount, Int.toNat]
  exact ⟨hp, (stop_loss_threshold_c4 Examples.slCfg Examples.slPool
    [Examples.slStrategy] 2 hp).1 rfl⟩

/-- Claim C6 (amended): when no live custody order still holds the
position token, the trailing-stop handler returns without emitting
anything and leaves every stored peak price unchanged — the peak is not
reset (peaks are keyed per order output, so a future entry under a new
output reference initializes its own peak independently). -/
theorem peak_not_reset_c6 (config : TrailingStop.Config) (ps : PoolState)
    (pool_price : ℚ) (now : Nat) (strategies : List ManagedStrategy)
    (peaks : TrailingStop.PeakStore)
    (h : TrailingStop.active_strategies config ps strategies = []) :
    TrailingStop.on_new_pool_state config ps pool_price now strategies
      peaks = (peaks, []) := by
  simp [TrailingStop.on_new_pool_state, h]

/-- Claim C6 counterexample: with a live order that holds none of the
position token and a stored peak of 150, processing a snapshot leaves the
stored peak at 150 — it is not reset to absent or zero. -/
theorem peak_not_reset_c6_counterexample :
    TrailingStop.on_new_pool_state Examples.tslCfg Examples.tslPool 100 0
      [Examples.tslEmptyStrategy] Examples.tslPeaks0 =
      (Examples.tslPeaks0, []) ∧
    alist_get Examples.exRef Examples.tslPeaks0 = some 150 ∧
    (150 : ℚ) ≠ 0 := by
  have h : TrailingStop.active_strategies Examples.tslCfg Examples.tslPool
      [Examples.tslEmptyStrategy] = [] := by decide
  refine ⟨?_, ?_, by norm_num⟩
  · simp [TrailingStop.on_new_pool_state, h]
  · simp [alist_get, Examples.tslPeaks0]

/-- Claim C6 witness: with no live orders at all, the handler leaves the
peak store untouched. -/
theorem peak_not_reset_c6_witness :
    TrailingStop.on_new_pool_state Examples.tslCfg Examples.tslPool 100 0
      [] Examples.tslPeaks0 = (Examples.tslPeaks0, []) :=
  peak_not_reset_c6 Examples.tslCfg Examples.tslPool 100 0 []
    Examples.tslPeaks0 (by decide)

/-- Claim C5 (amended): when grid lines are crossed but no nonzero trade
is permitted (the per-line slice is zero or the available balance fills
zero lines), the grid worker emits no instruction and leaves the stored
line offset (indeed the whole stored state) unchanged — the offset is not
advanced. -/
theorem grid_offset_unchanged_c5 (config : SymmetricalGrid.Config)
    (ps : PoolState) (pool_price : ℚ) (s : ManagedStrategy)
    (store : SymmetricalGrid.GridStore) (auth : StrategyAuthorization)
    (gs : SymmetricalGrid.GridState)
    (hdet : s.order.details = .strategy auth)
    (hgs : (alist_get auth store).getD
      (SymmetricalGrid.GridState.new s pool_price config) = gs)
    (hcross : (SymmetricalGrid.compute_crossed_prices
      (SymmetricalGrid.compute_grid_prices gs.center_price
        config.spacing_percent config.levels_per_side)
      gs.line_offset pool_price).2 ≠ []) :
    (gs.line_offset < (SymmetricalGrid.compute_crossed_prices
        (SymmetricalGrid.compute_grid_prices gs.center_price
          config.spacing_percent config.levels_per_side)
        gs.line_offset pool_price).1 →
      (gs.init_strat / config.levels_per_side = 0 ∨
        asset_amount s.utxo config.strategy_token /
          (gs.init_strat / config.levels_per_side) = 0) →
      SymmetricalGrid.step_strategy config ps pool_price s store =
        (store, [])) ∧
    (¬ gs.line_offset < (SymmetricalGrid.compute_crossed_prices
        (SymmetricalGrid.compute_grid_prices gs.center_price
          config.spacing_percent config.levels_per_side)
        gs.line_offset pool_price).1 →
      (gs.init_base / config.levels_per_side = 0 ∨
        asset_amount s.utxo config.base_token /
          (gs.init_base / config.levels_per_side) = 0) →
      SymmetricalGrid.step_strategy config ps pool_price s store =
        (store, [])) := by
  by_cases hrel : ps.is_correct_pool s.order config.strategy_token
      config.base_token
  · by_cases hamt : asset_amount s.utxo config.strategy_token = 0 ∧
        asset_amount s.utxo config.base_token = 0
    · constructor <;> intro _ _ <;>
        simp [SymmetricalGrid.step_strategy, hrel, hdet, hamt]
    · constructor
      · intro hup hzero
        rcases hzero with h0 | h0
        · simp [SymmetricalGrid.step_strategy, hrel, hdet, hamt, hgs,
            hcross, hup, h0]
        · by_cases hper : gs.init_strat / config.levels_per_side = 0
          · simp [SymmetricalGrid.step_strategy, hrel, hdet, hamt, hgs,
              hcross, hup, hper]
          · simp [SymmetricalGrid.step_strategy, hrel, hdet, hamt, hgs,
              hcross, hup, hper, h0]
      · intro hdown hzero
        rcases hzero with h0 | h0
        · simp [SymmetricalGrid.step_strategy, hrel, hdet, hamt, hgs,
            hcross, hdown, h0]
        · by_cases hper : gs.init_base / config.levels_per_side = 0
          · simp [SymmetricalGrid.step_strategy, hrel, hdet, hamt, hgs,
              hcross, hdown, hper]
          · simp [SymmetricalGrid.step_strategy, hrel, hdet, hamt, hgs,
              hcross, hdown, hper, h0]
  · constructor <;> intro _ _ <;> simp [SymmetricalGrid.step_strategy, hrel]

/-- Claim C5 counterexample: a grid order whose initial strategy amount
(2) is below `levels_per_side` (3) crosses lines at price 1.101 (the
crossed set is nonempty), yet the worker emits nothing and the stored
offset stays 0 — it is not advanced as the claim states. -/
theorem grid_offset_unchanged_c5_counterexample :
    SymmetricalGrid.step_strategy Examples.gridCfg Examples.gridPool
      (1101/1000) Examples.gridStrategy Examples.gridStore0 =
      (Examples.gridStore0, []) ∧
    (SymmetricalGrid.compute_crossed_prices
      (SymmetricalGrid.compute_grid_prices 1 (1/20) 3) 0
      (1101/1000)).2 ≠ [] ∧
    alist_get Examples.gridAuth Examples.gridStore0 =
      some ⟨1, 0, 2, 300⟩ := by
  refine ⟨?_, ?_, by simp [alist_get, Examples.gridStore0]⟩
  · norm_num [SymmetricalGrid.step_strategy, Examples.gridCfg,
      Examples.gridPool, Examples.gridPoolDatum, Examples.gridStrategy,
      Examples.gridOrder, Examples.gridAuth, Examples.gridOut,
      Examples.gridStore0, Examples.tokenS, Examples.ada,
      PoolState.is_correct_pool, AssetId.eqInline, asset_amount,
      AssetId.is_ada, alist_get, SymmetricalGrid.GridState.new,
      SymmetricalGrid.compute_grid_prices,
      SymmetricalGrid.compute_crossed_prices, List.range_succ,
      List.takeWhile, Int.toNat]
  · norm_num [SymmetricalGrid.compute_grid_prices,
      SymmetricalGrid.compute_crossed_prices, List.range_succ,
      List.takeWhile, Int.toNat]
    exact List.cons_ne_nil _ _

/-- Claim C5 witness: the amended claim applied at the concrete
zero-per-line-slice grid order. -/
theorem grid_offset_unchanged_c5_witness :
    SymmetricalGrid.step_strategy Examples.gridCfg Examples.gridPool
      (1101/1000) Examples.gridStrategy Examples.gridStore0 =
      (Examples.gridStore0, []) :=
  (grid_offset_unchanged_c5 Examples.gridCfg Examples.gridPool (1101/1000)
    Examples.gridStrategy Examples.gridStore0 Examples.gridAuth
    ⟨1, 0, 2, 300⟩ rfl
    (by simp [alist_get, Examples.gridStore0])
    (by norm_num [SymmetricalGrid.compute_grid_prices,
      SymmetricalGrid.compute_crossed_prices, Examples.gridCfg,
      List.range_succ, List.takeWhile, Int.toNat]
        exact List.cons_ne_nil _ _)).1
    (by norm_num [SymmetricalGrid.compute_grid_prices,
      SymmetricalGrid.compute_crossed_prices, Examples.gridCfg,
      List.range_succ, List.takeWhile, Int.toNat])
    (Or.inl (by decide))

/-- Trailing-stop per-strategy body never decreases any stored peak. -/
theorem tsl_step_peak_mono (config : TrailingStop.Config) (pool_price : ℚ)
    (now : Nat) (s : ManagedStrategy) (peaks : TrailingStop.PeakStore)
    (r : OutputReference) (p : ℚ) (h : alist_get r peaks = some p) :
    ∃ p', alist_get r
      (TrailingStop.step_strategy config pool_price now s peaks).1 =
        some p' ∧ p ≤ p' := by
  unfold TrailingStop.step_strategy
  rcases hst : alist_get s.output peaks with _ | peak
  · have hne : r ≠ s.output := by
      intro he
      rw [he, hst] at h
      exact Option.noConfusion h
    refine ⟨p, ?_, le_refl p⟩
    simp only [hst]
    rw [apply_ite Prod.fst, ite_self]
    rw [alist_get_put_other _ _ _ _ hne]
    exact h
  · by_cases hlt : peak < pool_price
    · simp only [hst, if_pos hlt]
      rw [apply_ite Prod.fst, ite_self]
      by_cases hre : r = s.output
      · subst hre
        rw [hst] at h
        refine ⟨pool_price, alist_get_put_self _ _ _, ?_⟩
        exact le_of_lt (Option.some.inj h ▸ hlt)
      · refine ⟨p, ?_, le_refl p⟩
        rw [alist_get_put_other _ _ _ _ hre]
        exact h
    · simp only [hst, if_neg hlt]
      rw [apply_ite Prod.fst, ite_self]
      exact ⟨p, h, le_refl p⟩

/-- The trailing-stop strategy loop never decreases any stored peak. -/
theorem tsl_foldl_peak_mono (config : TrailingStop.Config) (pool_price : ℚ)
    (now : Nat) :
    ∀ (l : List ManagedStrategy)
      (acc : TrailingStop.PeakStore × List StrategyExecution)
      (r : OutputReference) (p : ℚ), alist_get r acc.1 = some p →
      ∃ p', alist_get r
        (l.foldl (fun acc s =>
          let rr := TrailingStop.step_strategy config pool_price now s acc.1
          (rr.1, acc.2 ++ rr.2)) acc).1 = some p' ∧ p ≤ p' := by
  intro l
  induction l with
  | nil => intro acc r p h; exact ⟨p, h, le_refl p⟩
  | cons s l ih =>
    intro acc r p h
    rw [List.foldl_cons]
    obtain ⟨q, hq, hpq⟩ := tsl_step_peak_mono config pool_price now s acc.1
      r p h
    obtain ⟨p', hp', hqp'⟩ := ih
      ((TrailingStop.step_strategy config pool_price now s acc.1).1,
        acc.2 ++ (TrailingStop.step_strategy config pool_price now s acc.1).2)
      r q hq
    exact ⟨p', hp', le_trans hpq hqp'⟩

/-- A single trailing-stop snapshot never decreases any stored peak. -/
theorem tsl_on_new_pool_state_peak_mono (config : TrailingStop.Config)
    (ps : PoolState) (pool_price : ℚ) (now : Nat)
    (strategies : List ManagedStrategy) (peaks : TrailingStop.PeakStore)
    (r : OutputReference) (p : ℚ) (h : alist_get r peaks = some p) :
    ∃ p', alist_get r
      (TrailingStop.on_new_pool_state config ps pool_price now strategies
        peaks).1 = some p' ∧ p ≤ p' :=
  tsl_foldl_peak_mono config pool_price now
    (TrailingStop.active_strategies config ps strategies) (peaks, []) r p h

/-- A sequence of trailing-stop snapshots never decreases any stored
peak. -/
theorem tsl_run_foldl_mono (config : TrailingStop.Config) :
    ∀ (inputs : List (PoolState × ℚ × Nat × List ManagedStrategy))
      (acc : TrailingStop.PeakStore × List (List StrategyExecution))
      (r : OutputReference) (p : ℚ), alist_get r acc.1 = some p →
      ∃ p', alist_get r
        (inputs.foldl (fun acc i =>
          let r := TrailingStop.on_new_pool_state config i.1 i.2.1 i.2.2.1
            i.2.2.2 acc.1
          (r.1, acc.2 ++ [r.2])) acc).1 = some p' ∧ p ≤ p' := by
  intro inputs
  induction inputs with
  | nil => intro acc r p h; exact ⟨p, h, le_refl p⟩
  | cons i rest ih =>
    intro acc r p h
    rw [List.foldl_cons]
    obtain ⟨q, hq, hpq⟩ := tsl_on_new_pool_state_peak_mono config i.1 i.2.1
      i.2.2.1 i.2.2.2 acc.1 r p h
    obtain ⟨p', hp', hqp'⟩ := ih
      ((TrailingStop.on_new_pool_state config i.1 i.2.1 i.2.2.1 i.2.2.2
          acc.1).1,
        acc.2 ++ [(TrailingStop.on_new_pool_state config i.1 i.2.1 i.2.2.1
          i.2.2.2 acc.1).2]) r q hq
    exact ⟨p', hp', le_trans hpq hqp'⟩

/-- Claim C3: the stored peak price of any order is monotonically
non-decreasing across any sequence of pool snapshots; and in the
`trail_percent = 0.15` scenario with price sequence 100, 120, 150, 125
the stored peak follows 100, 120, 150, 150, the trigger prices are 85,
102, 127.5, 127.5, the final price 125 is below the final trigger 127.5,
and exactly one exit instruction is emitted, at the last snapshot only. -/
theorem trailing_peak_monotone_c3 :
    (∀ (config : TrailingStop.Config)
       (inputs : List (PoolState × ℚ × Nat × List ManagedStrategy))
       (peaks : TrailingStop.PeakStore) (r : OutputReference) (p : ℚ),
       alist_get r peaks = some p →
       ∃ p', alist_get r
         (TrailingStop.run_snapshots config inputs peaks).1 = some p' ∧
         p ≤ p') ∧
    (TrailingStop.run_snapshots Examples.tslCfg
      (Examples.tslInputs.take 1) []).1 = [(Examples.exRef, 100)] ∧
    (TrailingStop.run_snapshots Examples.tslCfg
      (Examples.tslInputs.take 2) []).1 = [(Examples.exRef, 120)] ∧
    (TrailingStop.run_snapshots Examples.tslCfg
      (Examples.tslInputs.take 3) []).1 = [(Examples.exRef, 150)] ∧
    (TrailingStop.run_snapshots Examples.tslCfg Examples.tslInputs []).1 =
      [(Examples.exRef, 150)] ∧
    (TrailingStop.run_snapshots Examples.tslCfg Examples.tslInputs []).2 =
      [[], [], [],
        [TrailingStop.trigger_exit Examples.tslCfg 0 Examples.tslStrategy
          (255/2)]] ∧
    (100 : ℚ) * (1 - Examples.tslCfg.trail_percent) = 85 ∧
    (120 : ℚ) * (1 - Examples.tslCfg.trail_percent) = 102 ∧
    (150 : ℚ) * (1 - Examples.tslCfg.trail_percent) = 255/2 ∧
    (125 : ℚ) < 255/2 := by
  refine ⟨?_, ?_⟩
  · intro config inputs peaks r p h
    exact tsl_run_foldl_mono config inputs (peaks, []) r p h
  · refine ⟨?_, ?_, ?_, ?_, ?_, ?_, ?_, ?_, ?_⟩ <;>
      norm_num [TrailingStop.run_snapshots, TrailingStop.on_new_pool_state,
        TrailingStop.active_strategies, TrailingStop.step_strategy,
        Examples.tslInputs, Examples.tslCfg, Examples.tslPool,
        Examples.tslPoolDatum, Examples.tslStrategy, Examples.tslOrder,
        Examples.tslOut, Examples.tokenP, Examples.ada, Examples.exRef,
        PoolState.is_correct_pool, AssetId.eqInline, asset_amount,
        AssetId.is_ada, alist_get, alist_put, List.filter]

/-- Claim C3 witness: the monotonicity applied to a concrete stored peak
of 1 across the scenario snapshots. -/
theorem trailing_peak_monotone_c3_witness :
    ∃ p', alist_get Examples.exRef
      (TrailingStop.run_snapshots Examples.tslCfg Examples.tslInputs
        [(Examples.exRef, 1)]).1 = some p' ∧ (1 : ℚ) ≤ p' :=
  trailing_peak_monotone_c3.1 Examples.tslCfg Examples.tslInputs
    [(Examples.exRef, 1)] Examples.exRef 1 (by simp [alist_get])

/-- An owned sighting handled against any store appends what it appends
against the empty store. -/
theorem handle_strategy_order_append (key : Bytes) (e : UtxoEvent)
    (store : List ManagedStrategy) :
    handle_strategy_order key e store =
      store ++ handle_strategy_order key e [] := by
  unfold handle_strategy_order
  rcases e.parsed_order with _ | datum
  · simp
  · rcases hdet : datum.details with ⟨⟨signer⟩⟩ | ⟨off, mr⟩ <;>
      simp only [hdet]
    · by_cases hs : signer = key <;> simp [hs]
    · simp

/-- What a sighting appends: nothing, or a single entry at the sighting's
reference. -/
theorem handle_strategy_order_nil_cases (key : Bytes) (e : UtxoEvent) :
    handle_strategy_order key e [] = [] ∨
    ∃ m, handle_strategy_order key e [] = [m] ∧ m.output = e.ref := by
  unfold handle_strategy_order
  rcases e.parsed_order with _ | datum
  · exact Or.inl rfl
  · rcases hdet : datum.details with ⟨⟨signer⟩⟩ | ⟨off, mr⟩ <;>
      simp only [hdet]
    · by_cases hs : signer = key
      · rw [if_pos hs]
        exact Or.inr ⟨_, rfl, rfl⟩
      · rw [if_neg hs]
        exact Or.inl rfl
    · exact Or.inl trivial

/-- An entry appended by a sighting is an owned strategy order located at
the sighting's reference. -/
theorem handle_strategy_order_singleton (key : Bytes) (e : UtxoEvent)
    (m : ManagedStrategy) (h : handle_strategy_order key e [] = [m]) :
    m.order.details = Order.strategy (.signature key) ∧
    m.output = e.ref := by
  unfold handle_strategy_order at h
  rcases hpd : e.parsed_order with _ | datum <;> simp only [hpd] at h
  · exact absurd h (by simp)
  · rcases hdet : datum.details with ⟨⟨signer⟩⟩ | ⟨off, mr⟩ <;>
      simp only [hdet] at h
    · by_cases hs : signer = key
      · rw [if_pos hs] at h
        simp only [List.nil_append, List.cons.injEq, and_true] at h
        subst h
        exact ⟨by simp [hdet, hs], rfl⟩
      · rw [if_neg hs] at h
        exact absurd h (by simp)
    · exact absurd h (by simp)

/-- Custody-ledger invariant: under pairwise-distinct sighting references,
running any event sequence preserves distinctness of the stored
references, and every final entry either was already stored or was
appended by one of the sightings. -/
theorem run_events_custody_invariant (key : Bytes) :
    ∀ (evs : List Event) (store : List ManagedStrategy),
      (sighting_refs evs).Nodup →
      ((store.map (fun m => m.output)).Nodup) →
      (∀ m ∈ store, ∀ rr ∈ sighting_refs evs, m.output ≠ rr) →
      ((run_events key evs store).map (fun m => m.output)).Nodup ∧
      (∀ m ∈ run_events key evs store, m ∈ store ∨
        ∃ e, Event.utxo e ∈ evs ∧ handle_strategy_order key e [] = [m]) := by
  intro evs
  induction evs with
  | nil =>
    intro store _ h2 _
    exact ⟨h2, fun m hm => Or.inl hm⟩
  | cons ev rest ih =>
    intro store h1 h2 h3
    cases ev with
    | tx t =>
      have hrun : run_events key (Event.tx t :: rest) store =
          run_events key rest (handle_tx t store) := rfl
      have hsub : (handle_tx t store).Sublist store := List.filter_sublist _
      have h2' : ((handle_tx t store).map (fun m => m.output)).Nodup :=
        (hsub.map _).nodup h2
      have h3' : ∀ m ∈ handle_tx t store, ∀ rr ∈ sighting_refs rest,
          m.output ≠ rr :=
        fun m hm => h3 m (hsub.mem hm)
      obtain ⟨ha, hb⟩ := ih (handle_tx t store) h1 h2' h3'
      rw [hrun]
      refine ⟨ha, fun m hm => ?_⟩
      rcases hb m hm with hin | ⟨e, he, hh⟩
      · exact Or.inl (hsub.mem hin)
      · exact Or.inr ⟨e, List.mem_cons_of_mem _ he, hh⟩
    | utxo e =>
      have hrun : run_events key (Event.utxo e :: rest) store =
          run_events key rest (handle_strategy_order key e store) := rfl
      have hrefs : sighting_refs (Event.utxo e :: rest) =
          e.ref :: sighting_refs rest := rfl
      rw [hrefs] at h1 h3
      have h1head : e.ref ∉ sighting_refs rest := (List.nodup_cons.mp h1).1
      have h1tail : (sighting_refs rest).Nodup := (List.nodup_cons.mp h1).2
      rw [hrun, handle_strategy_order_append]
      rcases handle_strategy_order_nil_cases key e with hnil | ⟨mk, hmk, hmkref⟩
      · rw [hnil, List.append_nil]
        have h3' : ∀ m ∈ store, ∀ rr ∈ sighting_refs rest, m.output ≠ rr :=
          fun m hm rr hrr => h3 m hm rr (List.mem_cons_of_mem _ hrr)
        obtain ⟨ha, hb⟩ := ih store h1tail h2 h3'
        refine ⟨ha, fun m hm => ?_⟩
        rcases hb m hm with hin | ⟨e', he', hh⟩
        · exact Or.inl hin
        · exact Or.inr ⟨e', List.mem_cons_of_mem _ he', hh⟩
      · rw [hmk]
        have hnotin : e.ref ∉ store.map (fun m => m.output) := by
          intro hcon
          obtain ⟨m, hm, hmo⟩ := List.mem_map.mp hcon
          exact h3 m hm e.ref (List.mem_cons_self _ _) hmo
        have h2' : (((store ++ [mk]).map (fun m => m.output))).Nodup := by
          rw [List.map_append]
          refine List.Nodup.append h2 (by simp) ?_
          intro x hx hy
          simp only [List.map_cons, List.map_nil, List.mem_singleton] at hy
          subst hy
          rw [hmkref] at hx
          exact hnotin hx
        have h3' : ∀ m ∈ store ++ [mk], ∀ rr ∈ sighting_refs rest,
            m.output ≠ rr := by
          intro m hm rr hrr
          rcases List.mem_append.mp hm with hm' | hm'
          · exact h3 m hm' rr (List.mem_cons_of_mem _ hrr)
          · rw [List.mem_singleton.mp hm', hmkref]
            intro hcon
            exact h1head (hcon ▸ hrr)
        obtain ⟨ha, hb⟩ := ih (store ++ [mk]) h1tail h2' h3'
        refine ⟨ha, fun m hm => ?_⟩
        rcases hb m hm with hin | ⟨e', he', hh⟩
        · rcases List.mem_append.mp hin with hm' | hm'
          · exact Or.inl hm'
          · refine Or.inr ⟨e, List.mem_cons_self _ _, ?_⟩
            rw [hmk, List.mem_singleton.mp hm']
        · exact Or.inr ⟨e', List.mem_cons_of_mem _ he', hh⟩

/-- Every custody entry after any event sequence either was already stored
or was appended by one of the sightings (unconditional provenance). -/
theorem run_events_provenance (key : Bytes) :
    ∀ (evs : List Event) (store : List ManagedStrategy),
      ∀ m ∈ run_events key evs store, m ∈ store ∨
        ∃ e, Event.utxo e ∈ evs ∧ handle_strategy_order key e [] = [m] := by
  intro evs
  induction evs with
  | nil => intro store m hm; exact Or.inl hm
  | cons ev rest ih =>
    intro store m hm
    cases ev with
    | tx t =>
      have hm' : m ∈ run_events key rest (handle_tx t store) := hm
      rcases ih (handle_tx t store) m hm' with hin | ⟨e, he, hh⟩
      · exact Or.inl (List.mem_of_mem_filter hin)
      · exact Or.inr ⟨e, List.mem_cons_of_mem _ he, hh⟩
    | utxo e =>
      have hm' : m ∈ run_events key rest
          (handle_strategy_order key e store) := hm
      rcases ih (handle_strategy_order key e store) m hm' with
        hin | ⟨e', he', hh⟩
      · rw [handle_strategy_order_append] at hin
        rcases List.mem_append.mp hin with h1 | h1
        · exact Or.inl h1
        · rcases handle_strategy_order_nil_cases key e with
            hnil | ⟨mk, hmk, _⟩
          · rw [hnil] at h1
            exact absurd h1 (List.not_mem_nil m)
          · refine Or.inr ⟨e, List.mem_cons_self _ _, ?_⟩
            rw [hmk] at h1 ⊢
            rw [List.mem_singleton.mp h1]
      · exact Or.inr ⟨e', List.mem_cons_of_mem _ he', hh⟩

/-- Claim C1 (amended): unconditionally, every entry of the persisted
custody list is a strategy order whose authorization signer equals the
worker's configured signing key, located at the reference of one of the
handled output sightings — this holds for every event sequence, repeated
sightings included.  Uniqueness holds under a proviso: when no two handled
output sightings share an `OutputReference`, the list never contains two
entries with the same `OutputReference`.  (Without the proviso uniqueness
fails: the code appends without de-duplication, so handling the same
sighting twice leaves two entries — see the counterexample.) -/
theorem custody_orders_c1 (key : Bytes) (evs : List Event) :
    (∀ m ∈ run_events key evs [],
      m.order.details = Order.strategy (.signature key) ∧
      m.output ∈ sighting_refs evs) ∧
    ((sighting_refs evs).Nodup →
      ((run_events key evs []).map (fun m => m.output)).Nodup) := by
  constructor
  · intro m hm
    rcases run_events_provenance key evs [] m hm with hin | ⟨e, he, hh⟩
    · exact absurd hin (List.not_mem_nil m)
    · obtain ⟨hd, hr⟩ := handle_strategy_order_singleton key e m hh
      refine ⟨hd, ?_⟩
      rw [hr]
      exact List.mem_filterMap.mpr ⟨Event.utxo e, he, rfl⟩
  · intro h
    exact (run_events_custody_invariant key evs [] h (by simp) (by simp)).1

/-- Claim C1 counterexample: handling the same owned-order sighting twice
leaves two custody entries with the same `OutputReference` — not at most
one as claimed. -/
theorem custody_orders_c1_counterexample :
    (run_events Examples.exKey
      [.utxo Examples.exSighting, .utxo Examples.exSighting] []).length =
      2 ∧
    ¬ ((run_events Examples.exKey
      [.utxo Examples.exSighting, .utxo Examples.exSighting] []).map
      (fun m => m.output)).Nodup := by
  constructor <;> decide

/-- Claim C1 witness: a sequence with one owned sighting and one unrelated
transaction yields a duplicate-free custody list with one entry. -/
theorem custody_orders_c1_witness :
    ((run_events Examples.exKey Examples.exEvents []).map
      (fun m => m.output)).Nodup ∧
    (run_events Examples.exKey Examples.exEvents []).length = 1 :=
  ⟨(custody_orders_c1 Examples.exKey Examples.exEvents).2 (by decide),
    by decide⟩

/-- Claim C9 witness: an unrelated transaction retains a custody order. -/
theorem release_spent_c9_witness :
    Examples.slStrategy ∈ handle_tx Examples.exTx [Examples.slStrategy] :=
  (release_spent_c9 Examples.exTx [Examples.slStrategy]
    Examples.slStrategy).1.mpr ⟨List.mem_singleton.mpr rfl, by decide⟩

end SundaeStrategies
